import Mathlib

/-!
Verification development for the ai-live-stream backend.

The Python sources under `services/` and `routers/` are embedded shallowly:
Redis-backed queues become lists inside an explicit `StreamState`, remote
calls (TTS, LLM) become oracle functions supplied through an `Env`, Python
exceptions become `Except PyErr`, and `time.time()` / `uuid4()` become a
logical clock field and an externally supplied identifier.  Integer chunk
ids are modelled as `Nat` (the source stores `str(n)`; the claims compare
the integer values).
-/

set_option maxHeartbeats 1000000
set_option maxRecDepth 10000

/-- Whitespace characters recognised by Python's `str.strip` / `\s`
(ASCII fragment, which covers the strings this system manipulates). -/
def isSpacePy (c : Char) : Bool :=
  c = ' ' || c = '\t' || c = '\n' || c = '\r' || c = '\x0b' || c = '\x0c'

/-- Python `str.strip` on a character list. -/
def stripChars (s : List Char) : List Char :=
  ((s.dropWhile isSpacePy).reverse.dropWhile isSpacePy).reverse

/-- Python `str.strip`. -/
def pyStrip (s : String) : String := ⟨stripChars s.data⟩

/-- Python `str.lower` (per-character lowering). -/
def pyLower (s : String) : String := ⟨s.data.map Char.toLower⟩

/-- Helper for Python `str.splitlines`: accumulates the current line
(reversed) while scanning; a final line is emitted only when non-empty. -/
def splitlinesAux : List Char → List Char → List (List Char)
  | cur, [] => if cur.isEmpty then [] else [cur.reverse]
  | cur, '\r' :: '\n' :: rest => cur.reverse :: splitlinesAux [] rest
  | cur, '\n' :: rest => cur.reverse :: splitlinesAux [] rest
  | cur, '\r' :: rest => cur.reverse :: splitlinesAux [] rest
  | cur, c :: rest => splitlinesAux (c :: cur) rest

/-- Python `str.splitlines`. -/
def pySplitlines (s : String) : List String :=
  (splitlinesAux [] s.data).map (fun cs => ⟨cs⟩)

/-- Helper for Python `str.split(sep)` with a one-character separator:
always returns at least one (possibly empty) part. -/
def pySplitAux (sep : Char) : List Char → List Char → List (List Char)
  | cur, [] => [cur.reverse]
  | cur, c :: rest =>
    if c = sep then cur.reverse :: pySplitAux sep [] rest
    else pySplitAux sep (c :: cur) rest

/-- Python `str.split(sep)` for a one-character separator. -/
def pySplit (sep : Char) (s : String) : List String :=
  (pySplitAux sep [] s.data).map (fun cs => ⟨cs⟩)

/-- Line list computed by `StreamProcessor._replace_script`:
`[line.strip() for line in script.splitlines() if line.strip()]`. -/
def scriptLines (script : String) : List String :=
  ((pySplitlines script).map pyStrip).filter (fun l => l ≠ "")

/-- Audio categories (`services/audio.py`, `class AudioKind(StrEnum)`). -/
inductive AudioKind
  | general
  | superchat
  | gift
deriving DecidableEq

/-- String value of an `AudioKind` member (StrEnum `.value`). -/
def AudioKind.value : AudioKind → String
  | .general => "general"
  | .superchat => "superchat"
  | .gift => "gift"

/-- Configured default streamer persona (`config.py`, env default "speed"). -/
def DEFAULT_STREAMER_PERSONA : String := "speed"

/-- Configured gift prompt (`config.py`, `DEFAULT_GIFT_PROMPT`). -/
def DEFAULT_GIFT_PROMPT : String :=
  "A viewer just sent a gift during the livestream. React with excitement and keep the energy high!"

/-- Serialized audio chunk (`services/audio.py`, payload of `enqueue_audio_chunk`).
`chunk_id` is the integer value of the stored `str(chunk_id)`; `speaker` is
`Option` because `_process_superchat` passes the record's optional persona. -/
structure Chunk where
  chunk_id : Nat
  audio_base64 : String
  kind : AudioKind
  transcript : String
  speaker : Option String
deriving DecidableEq

/-- History record (`services/processor.py`, `@dataclass HistoryRecord`). -/
structure HistoryRecord where
  persona : Option String
  text : String
  kind : AudioKind
  chunk_id : Nat
  timestamp : Nat
deriving DecidableEq

/-- Script queue entry (`_replace_script` JSON payload
`{line, kind, persona}`). -/
structure ScriptEntry where
  line : String
  kind : AudioKind
  persona : String
deriving DecidableEq

/-- Stored interrupt record (`services/interrupts.py` JSON hash value). -/
structure InterruptData where
  interrupt_id : String
  kind : AudioKind
  persona : Option String
  message : Option String
  status : String
  created_at : Nat
  started_at : Option Nat
  completed_at : Option Nat
  retry_at : Option Nat
deriving DecidableEq

/-- In-flight interrupt (`services/interrupts.py`, `@dataclass InterruptRecord`). -/
structure InterruptRecord where
  interrupt_id : String
  kind : AudioKind
  persona : Option String
  message : Option String
  created_at : Nat
  status : String
deriving DecidableEq

/-- Result returned by `register_interrupt`
(`services/interrupts.py`, `@dataclass InterruptResult`). -/
structure InterruptResult where
  interrupt_id : String
  kind : AudioKind
  status : String
deriving DecidableEq

/-- Python exceptions that the embedded code can raise. -/
inductive PyErr
  | indexError
  | valueError
  | remoteError
deriving DecidableEq

/-- Global mutable state: the Redis keys used by the system plus the
processor-local `line_index` and a logical clock standing in for
`time.time()`. -/
structure StreamState where
  scriptQueue : List ScriptEntry
  interruptQueue : List String
  interruptData : List (String × InterruptData)
  audioQueue : List Chunk
  history : List HistoryRecord
  chunkCounter : Nat
  lineIndex : Nat
  now : Nat
deriving DecidableEq

/-- Redis `hset` on a hash modelled as an association list: the field's
previous binding is removed and the new binding appended.  The code only
ever reads the hash through `hget`, so binding order is unobservable and
this is a faithful model of the Redis field update. -/
def hset (m : List (String × InterruptData)) (k : String) (v : InterruptData) :
    List (String × InterruptData) :=
  (m.filter (fun kv => kv.1 ≠ k)) ++ [(k, v)]

/-- Redis `hget`. -/
def hget (m : List (String × InterruptData)) (k : String) : Option InterruptData :=
  (m.find? (fun kv => kv.1 = k)).map Prod.snd

/-- Remote-call oracles: `tts` stands for `agenerate_audio_with_persona`
(persona, text), `llm` for `generate_script_with_llm`
(history, input_text, remaining_script, persona).  An `Except.error`
models the call raising after whatever internal retrying it does. -/
structure Env where
  tts : Option String → Option String → Except PyErr String
  llm : String → String → String → Option String → Except PyErr String

/-- Source `enqueue_audio_chunk` (`services/audio.py`): `INCR` the chunk
counter, serialize the chunk, `RPUSH` it, return the id. -/
def enqueue_audio_chunk (kind : AudioKind) (audio_base64 transcript : String)
    (speaker : Option String) (s : StreamState) : Nat × StreamState :=
  let chunk_id := s.chunkCounter + 1
  (chunk_id,
    { s with
        chunkCounter := chunk_id,
        audioQueue := s.audioQueue ++
          [⟨chunk_id, audio_base64, kind, transcript, speaker⟩] })

/-- Drain loop of `fetch_audio_chunks`: `LPOP` until empty, validating each
payload; a `None` speaker raises `ValueError` mid-drain.  Returns the
outcome together with the part of the queue not yet popped. -/
def fetchAux (acc : List Chunk) : List Chunk → Except PyErr (List Chunk) × List Chunk
  | [] => (.ok acc.reverse, [])
  | c :: rest =>
    if c.speaker = none then (.error .valueError, rest)
    else fetchAux (c :: acc) rest

/-- Source `fetch_audio_chunks` (`services/audio.py`). -/
def fetch_audio_chunks (s : StreamState) : Except PyErr (List Chunk) × StreamState :=
  let r := fetchAux [] s.audioQueue
  (r.1, { s with audioQueue := r.2 })

/-- Source `count_audio_chunks` (`services/audio.py`). -/
def count_audio_chunks (s : StreamState) : Nat := s.audioQueue.length

/-- Source `reset_audio_queue` (`services/audio.py`): deletes both the
queue and the counter key (a deleted counter makes `INCR` restart at 1,
i.e. counter value 0).  Reachable only from `StreamProcessor.reset_state`,
which no code in the repository calls. -/
def reset_audio_queue (s : StreamState) : StreamState :=
  { s with audioQueue := [], chunkCounter := 0 }

/-- Source `register_interrupt` (`services/interrupts.py`).  `uuid` stands
for the freshly generated `uuid4().hex`. -/
def register_interrupt (kind : AudioKind) (persona message : Option String)
    (uuid : String) (s : StreamState) : Except PyErr (InterruptResult × StreamState) :=
  if kind = AudioKind.general then .error .valueError
  else
    .ok (⟨uuid, kind, "queued"⟩,
      { s with
          interruptData := hset s.interruptData uuid
            ⟨uuid, kind, persona, message, "queued", s.now, none, none, none⟩,
          interruptQueue := s.interruptQueue ++ [uuid] })

/-- Source `pop_next_interrupt` (`services/interrupts.py`): `LPOP` the id
queue; a missing hash record is dropped silently; otherwise the stored
record advances to `processing` with `started_at` recorded. -/
def pop_next_interrupt (s : StreamState) : Option InterruptRecord × StreamState :=
  match s.interruptQueue with
  | [] => (none, s)
  | interrupt_id :: rest =>
    match hget s.interruptData interrupt_id with
    | none => (none, { s with interruptQueue := rest })
    | some data =>
      (some ⟨interrupt_id, data.kind, data.persona, data.message, data.created_at,
         "processing"⟩,
       { s with
           interruptQueue := rest,
           interruptData := hset s.interruptData interrupt_id
             { data with status := "processing", started_at := some s.now } })

/-- Source `mark_interrupt_processed` (`services/interrupts.py`). -/
def mark_interrupt_processed (interrupt_id status : String) (s : StreamState) :
    StreamState :=
  match hget s.interruptData interrupt_id with
  | none => s
  | some data =>
    { s with
        interruptData := hset s.interruptData interrupt_id
          { data with status := status, completed_at := some s.now } }

/-- Source `requeue_interrupt` (`services/interrupts.py`): rewrite the hash
record from the in-flight dataclass (keeping `created_at`, adding
`retry_at`, dropping `started_at`/`completed_at` keys) and `RPUSH` the id
back onto the queue tail. -/
def requeue_interrupt (record : InterruptRecord) (s : StreamState) : StreamState :=
  { s with
      interruptData := hset s.interruptData record.interrupt_id
        ⟨record.interrupt_id, record.kind, record.persona, record.message,
         record.status, record.created_at, none, none, some s.now⟩,
      interruptQueue := s.interruptQueue ++ [record.interrupt_id] }

/-- Outcome dictionaries returned by `process_once` and its helpers. -/
inductive Outcome
  | superchatDone (chunk_id : Nat) (persona : Option String) (text : String)
  | giftDone (script_enqueued : Bool)
  | lineDone (kind : AudioKind) (chunk_id : Nat) (persona : String) (text : String)
deriving DecidableEq

/-- Rendering of an optional persona inside an f-string (Python prints
`None` for a missing value). -/
def personaStr : Option String → String
  | none => "None"
  | some p => p

/-- Source `HistoryRecord.to_str`. -/
def HistoryRecord.to_str (r : HistoryRecord) : String :=
  "[" ++ personaStr r.persona ++ "] " ++ r.text

/-- Source `StreamProcessor._replace_script`: zero `line_index`, delete the
queue key, push the stripped non-empty lines tagged with the category and
the default persona (an empty line list just leaves the queue deleted). -/
def replace_script (script : String) (default_kind : AudioKind) (s : StreamState) :
    StreamState :=
  { s with
      lineIndex := 0,
      scriptQueue := (scriptLines script).map
        (fun line => ⟨line, default_kind, DEFAULT_STREAMER_PERSONA⟩) }

/-- Source `StreamProcessor._pop_next_script_entry` (`LPOP`). -/
def pop_next_script_entry (s : StreamState) : Option ScriptEntry × StreamState :=
  match s.scriptQueue with
  | [] => (none, s)
  | entry :: rest => (some entry, { s with scriptQueue := rest })

/-- Source `StreamProcessor._append_history` (`RPUSH`). -/
def append_history (record : HistoryRecord) (s : StreamState) : StreamState :=
  { s with history := s.history ++ [record] }

/-- Source `StreamProcessor._history_snapshot` with its default
`limit=50`: last 50 history records rendered `"[persona] text\n"` and
concatenated. -/
def history_snapshot (s : StreamState) : String :=
  String.join (((s.history.reverse.take 50).reverse).map
    (fun r => r.to_str ++ "\n"))

/-- Source `StreamProcessor._remaining_script_text`: stripped non-empty
pending line texts joined by newlines, without consuming the queue. -/
def remaining_script_text (s : StreamState) : String :=
  String.intercalate "\n"
    (((s.scriptQueue.map (fun e => pyStrip e.line)).filter (fun l => l ≠ "")))

/-- Speaker parsing step of `_handle_script_line`:
`speaker = line.split("[")[1].split("]")[0].strip().lower()` and
`line = line.split("]")[1].strip()`; a missing index raises `IndexError`. -/
def parse_speaker_line (line : String) : Except PyErr (String × String) :=
  match (pySplit '[' line).get? 1 with
  | none => .error .indexError
  | some seg =>
    let speaker := pyLower (pyStrip ((pySplit ']' seg).headD ""))
    match (pySplit ']' line).get? 1 with
    | none => .error .indexError
    | some rest => .ok (speaker, pyStrip rest)

/-- Source `StreamProcessor._handle_script_line`.  The entry's persona is
overridden by the parsed speaker (the `persona = speaker` line in the
source); an uncaught exception is returned as `.error` together with the
state at the moment it was raised (the popped entry is already gone). -/
def handle_script_line (env : Env) (s : StreamState) :
    Except PyErr (Option Outcome) × StreamState :=
  match pop_next_script_entry s with
  | (none, s1) => (.ok none, s1)
  | (some entry, s1) =>
    let line0 := pyStrip entry.line
    if line0 = "" then (.ok none, s1)
    else
      match parse_speaker_line line0 with
      | .error e => (.error e, s1)
      | .ok (speaker, line) =>
        let persona := speaker
        match env.tts (some persona) (some line) with
        | .error e => (.error e, s1)
        | .ok audio =>
          let r := enqueue_audio_chunk entry.kind audio line (some persona) s1
          let s2 := append_history ⟨some persona, line, entry.kind, r.1, r.2.now⟩ r.2
          let s3 := { s2 with lineIndex := s2.lineIndex + 1 }
          (.ok (some (.lineDone entry.kind r.1 persona line)), s3)

/-- Source `StreamProcessor._process_superchat`: TTS, the late
missing-message check, enqueue, history append, LLM rewrite (replacing the
script under category `general` when non-empty), mark `processed`. -/
def process_superchat (env : Env) (record : InterruptRecord) (s : StreamState) :
    Except PyErr Outcome × StreamState :=
  match env.tts record.persona record.message with
  | .error e => (.error e, s)
  | .ok audio =>
    match record.message with
    | none => (.error .valueError, s)
    | some msg =>
      let r := enqueue_audio_chunk .superchat audio msg record.persona s
      let s2 := append_history ⟨record.persona, msg, .superchat, r.1, r.2.now⟩ r.2
      match env.llm (history_snapshot s2) msg (remaining_script_text s2) record.persona with
      | .error e => (.error e, s2)
      | .ok new_script =>
        let s3 := if new_script = "" then s2 else replace_script new_script .general s2
        let s4 := mark_interrupt_processed record.interrupt_id "processed" s3
        (.ok (.superchatDone r.1 record.persona msg), s4)

/-- Source `StreamProcessor._process_gift`: no audio and no history; LLM
follow-up script replaces the queue under category `gift` when non-empty;
the interrupt is marked `queued_script` either way. -/
def process_gift (env : Env) (record : InterruptRecord) (s : StreamState) :
    Except PyErr Outcome × StreamState :=
  match env.llm (history_snapshot s) DEFAULT_GIFT_PROMPT (remaining_script_text s) none with
  | .error e => (.error e, s)
  | .ok new_script =>
    let s2 := if new_script = "" then s else replace_script new_script .gift s
    let s3 := mark_interrupt_processed record.interrupt_id "queued_script" s2
    (.ok (.giftDone (new_script != "")), s3)

/-- Source `StreamProcessor._handle_interrupt`: dispatch on the kind; any
other kind raises `ValueError`. -/
def handle_interrupt (env : Env) (record : InterruptRecord) (s : StreamState) :
    Except PyErr Outcome × StreamState :=
  if record.kind = AudioKind.superchat then process_superchat env record s
  else if record.kind = AudioKind.gift then process_gift env record s
  else (.error .valueError, s)

/-- Source `StreamProcessor.process_once`: pop an interrupt and handle it,
requeueing on any exception; otherwise fall through to the script queue
(whose own exceptions are not caught here). -/
def process_once (env : Env) (s : StreamState) :
    Except PyErr (Option Outcome) × StreamState :=
  match pop_next_interrupt s with
  | (some record, s1) =>
    match handle_interrupt env record s1 with
    | (.ok out, s2) => (.ok (some out), s2)
    | (.error _, s2) => (.ok none, requeue_interrupt record s2)
  | (none, s1) => handle_script_line env s1

/-- Source `InterruptRequest.validate_superchat` (`schemas/audio.py`):
`general` is rejected; for `superchat` both `message` and `persona` must
be truthy (present and non-empty). -/
def validate_interrupt_request (kind : AudioKind) (persona message : Option String) :
    Bool :=
  if kind = AudioKind.general then false
  else if kind = AudioKind.superchat then
    (message.getD "" != "") && (persona.getD "" != "")
  else true

/-- HTTP responses of the interrupt endpoint that the claims mention. -/
inductive HttpResult
  | rejected422
  | accepted (response : InterruptResult)
  | serverError
deriving DecidableEq

/-- HTTP `POST` interrupt endpoint (`routers/audio.py`,
`trigger_interrupt`): request-model validation happens before the handler
runs, so a validation failure is a 422 with no state touched; otherwise
`register_interrupt` runs. -/
def http_trigger_interrupt (kind : AudioKind) (persona message : Option String)
    (uuid : String) (s : StreamState) : HttpResult × StreamState :=
  if validate_interrupt_request kind persona message then
    match register_interrupt kind persona message uuid s with
    | .error _ => (.serverError, s)
    | .ok (res, s2) => (.accepted res, s2)
  else (.rejected422, s)

/-- tenacity `wait_exponential(multiplier=1, min=1, max=10)`: the wait in
seconds before the retry that follows attempt number `n`. -/
def retry_wait (n : Nat) : Nat := min 10 (max 1 (2 ^ (n - 1)))

/-- tenacity retry loop with `retry_if_exception_type((Exception,))` and
`reraise=True`: `outcome n` is the result of attempt number `n`; `left`
further attempts remain after the current one, and on the final attempt
the outcome is returned as-is (the last error re-raised). -/
def retryFrom (outcome : Nat → Except PyErr String) : Nat → Nat → Except PyErr String
  | attempt, 0 => outcome attempt
  | attempt, left + 1 =>
    match outcome attempt with
    | .ok a => .ok a
    | .error _ => retryFrom outcome (attempt + 1) left

/-- Retry wrapper around `generate_audio_with_reference`
(`services/processor.py` and `services/generation.py`):
`stop_after_attempt(10000)`, i.e. attempt 1 plus at most 9999 retries. -/
def generate_audio_with_reference_retry (outcome : Nat → Except PyErr String) :
    Except PyErr String :=
  retryFrom outcome 1 9999

/-- Python `\w` (ASCII fragment): alphanumeric or underscore. -/
def isWordChar (c : Char) : Bool := c.isAlphanum || c = '_'

/-- Scanner for `re.sub(r"\s+", " ", s)`: `inRun` records whether the
previous character belonged to a whitespace run already replaced. -/
def collapseWsAux (inRun : Bool) : List Char → List Char
  | [] => []
  | c :: rest =>
    if isSpacePy c then
      if inRun then collapseWsAux true rest
      else ' ' :: collapseWsAux true rest
    else c :: collapseWsAux false rest

/-- Python `re.sub(r"\s+", " ", s)`: collapse whitespace runs to one space. -/
def collapseWs (l : List Char) : List Char := collapseWsAux false l

/-- Normalization inside `calculate_wer`:
`re.sub(r"\s+"," ", re.sub(r"[^\w\s]","", s.lower())).strip()`. -/
def wordNorm (s : String) : String :=
  pyStrip ⟨collapseWs (((pyLower s).data).filter (fun c => isWordChar c || isSpacePy c))⟩

/-- Python `str.split()` with no separator: whitespace runs delimit words,
no empty words are produced. -/
def pyWordsAux : List Char → List Char → List (List Char)
  | cur, [] => if cur.isEmpty then [] else [cur.reverse]
  | cur, c :: rest =>
    if isSpacePy c then
      if cur.isEmpty then pyWordsAux [] rest
      else cur.reverse :: pyWordsAux [] rest
    else pyWordsAux (c :: cur) rest

/-- Word sequence `norm(s).split()` used by `calculate_wer`. -/
def normWords (s : String) : List String :=
  (pyWordsAux [] (wordNorm s).data).map (fun cs => ⟨cs⟩)

/-- Python `min(ins, dele, sub, key=lambda x: x[0])` folded pairwise: the
first tuple with minimal first component wins ties. -/
def minByCost (a b : Nat × Nat × Nat × Nat) : Nat × Nat × Nat × Nat :=
  if b.1 < a.1 then b else a

/-- DP table of `calculate_wer`: `werDP r h i j` is `dp[i][j]`, the
`(cost, S, D, I)` tuple for the first `i` words of `r` against the first
`j` words of `h`. -/
def werDP (r h : List String) : Nat → Nat → Nat × Nat × Nat × Nat
  | 0, 0 => (0, 0, 0, 0)
  | i + 1, 0 => (i + 1, 0, i + 1, 0)
  | 0, j + 1 => (j + 1, 0, 0, j + 1)
  | i + 1, j + 1 =>
    if r.getD i "" = h.getD j "" then werDP r h i j
    else
      let ins := werDP r h (i + 1) j
      let ins := (ins.1 + 1, ins.2.1, ins.2.2.1, ins.2.2.2 + 1)
      let dele := werDP r h i (j + 1)
      let dele := (dele.1 + 1, dele.2.1, dele.2.2.1 + 1, dele.2.2.2)
      let sub := werDP r h i j
      let sub := (sub.1 + 1, sub.2.1 + 1, sub.2.2.1, sub.2.2.2)
      minByCost (minByCost ins dele) sub
termination_by i j => i + j
decreasing_by all_goals omega

/-- Return value of `calculate_wer` (`services/processor.py`). -/
structure WerResult where
  WER : ℚ
  S : Nat
  D : Nat
  I : Nat
  N : Nat
deriving DecidableEq

/-- Source `calculate_wer(ref, hyp)`: normalize both texts, run the DP,
and divide the cost by `max(1, m)` where `m` is the word count of the
FIRST argument. -/
def calculate_wer (ref hyp : String) : WerResult :=
  let r := normWords ref
  let h := normWords hyp
  let t := werDP r h r.length h.length
  ⟨(t.1 : ℚ) / ((max 1 r.length : Nat) : ℚ), t.2.1, t.2.2.1, t.2.2.2, r.length⟩

/-- Pure tail of `aget_valid_score(audio_b64, reference_transcript)`: the
remote speech-to-text call is abstracted into its result `transcription`,
and the score is `1 - calculate_wer(transcription, reference)["WER"]`. -/
def valid_score (transcription reference_transcript : String) : ℚ :=
  1 - (calculate_wer transcription reference_transcript).WER

/-- Modelled from the spec claim wording: the same score but with WER
normalized by the REFERENCE text's word count, as claim C9 describes. -/
def claimed_valid_score (transcription reference_transcript : String) : ℚ :=
  let r := normWords transcription
  let h := normWords reference_transcript
  1 - ((werDP r h r.length h.length).1 : ℚ) / ((max 1 h.length : Nat) : ℚ)

/-- Modelled from the spec: the textbook unit-cost
insertion/deletion/substitution edit distance between two word sequences,
written as the standard prefix recurrence. -/
def editDistance (a b : List String) : Nat :=
  if ha : a = [] then b.length
  else if hb : b = [] then a.length
  else if a.getLast ha = b.getLast hb then
    editDistance a.dropLast b.dropLast
  else
    1 + min (min (editDistance a b.dropLast) (editDistance a.dropLast b))
      (editDistance a.dropLast b.dropLast)
termination_by a.length + b.length
decreasing_by
  all_goals
    have hla : 0 < a.length := List.length_pos.mpr ha
    have hlb : 0 < b.length := List.length_pos.mpr hb
    simp_wf
    omega

/-- Operations the running process can perform on the shared store: a
processor tick, an interrupt registration from the HTTP layer, and an
audio drain from the HTTP layer.  (`reset_state`, which deletes the chunk
counter, has no caller anywhere in the repository.) -/
inductive Op
  | tick (env : Env)
  | register (kind : AudioKind) (persona message : Option String) (uuid : String)
  | drain

/-- State transition of one operation (errors leave the state the
operation produced up to the raise, as in the source). -/
def runOp : Op → StreamState → StreamState
  | .tick env, s => (process_once env s).2
  | .register kind persona message uuid, s =>
    match register_interrupt kind persona message uuid s with
    | .error _ => s
    | .ok (_, s2) => s2
  | .drain, s => (fetch_audio_chunks s).2

/-- Run a sequence of operations. -/
def run (ops : List Op) (s : StreamState) : StreamState :=
  ops.foldl (fun s op => runOp op s) s

/-- Lookup after a field update: the updated key reads the new value and
every other key is unaffected. -/
lemma hget_hset (m : List (String × InterruptData)) (k : String) (v : InterruptData)
    (q : String) : hget (hset m k v) q = if q = k then some v else hget m q := by
  induction m with
  | nil =>
    by_cases h : q = k
    · simp [hget, hset, List.find?, h]
    · have h' : ¬k = q := fun hh => h hh.symm
      simp [hget, hset, List.find?, h, h']
  | cons kv m ih =>
    by_cases h1 : kv.1 = k <;> by_cases h2 : kv.1 = q <;>
      simp_all [hget, hset, List.find?, List.filter_cons]

/-- Fuel-bounded repetition of `pop_next_script_entry`, collecting the
popped entries in order. -/
def drainFuel : Nat → StreamState → List ScriptEntry × StreamState
  | 0, s => ([], s)
  | n + 1, s =>
    match pop_next_script_entry s with
    | (none, s1) => ([], s1)
    | (some e, s1) =>
      let r := drainFuel n s1
      (e :: r.1, r.2)

/-- Repeated `pop_head` calls until the script queue is exhausted. -/
def drain_script (s : StreamState) : List ScriptEntry × StreamState :=
  drainFuel s.scriptQueue.length s

/-- Draining with enough fuel yields exactly the queued entries in order
and leaves the queue empty. -/
lemma drainFuel_spec : ∀ n (s : StreamState), s.scriptQueue.length ≤ n →
    drainFuel n s = (s.scriptQueue, { s with scriptQueue := [] }) := by
  intro n
  induction n with
  | zero =>
    intro s h
    have h0 : s.scriptQueue = [] := List.length_eq_zero.mp (Nat.le_zero.mp h)
    cases s
    simp_all [drainFuel]
  | succ n ih =>
    intro s h
    cases hq : s.scriptQueue with
    | nil =>
      cases s
      simp_all [drainFuel, pop_next_script_entry]
    | cons e rest =>
      have hlen : ({ s with scriptQueue := rest } : StreamState).scriptQueue.length ≤ n := by
        rw [hq] at h
        simpa using Nat.le_of_succ_le_succ h
      simp [drainFuel, pop_next_script_entry, hq, ih _ hlen]

/-- Empty boot state: no Redis keys set, counters at zero. -/
def initialState : StreamState := ⟨[], [], [], [], [], 0, 0, 0⟩

/-- Demo oracle environment whose remote calls always succeed (the TTS
yields a fixed payload and the LLM returns an empty script). -/
def envDemo : Env := ⟨fun _ _ => .ok "AAAA", fun _ _ _ _ => .ok ""⟩

/-- Demo oracle environment whose remote calls always raise. -/
def envFail : Env :=
  ⟨fun _ _ => .error .remoteError, fun _ _ _ _ => .error .remoteError⟩

/-- Popping an interrupt touches only the interrupt queue and hash. -/
lemma pop_next_interrupt_frame (s : StreamState) :
    (pop_next_interrupt s).2.audioQueue = s.audioQueue
    ∧ (pop_next_interrupt s).2.history = s.history
    ∧ (pop_next_interrupt s).2.chunkCounter = s.chunkCounter
    ∧ (pop_next_interrupt s).2.now = s.now
    ∧ (pop_next_interrupt s).2.scriptQueue = s.scriptQueue
    ∧ (pop_next_interrupt s).2.lineIndex = s.lineIndex := by
  unfold pop_next_interrupt
  cases s.interruptQueue with
  | nil => simp
  | cons id rest =>
    rcases h : hget s.interruptData id with _ | data <;> simp [h]

/-- Marking an interrupt processed touches only the interrupt hash. -/
lemma mark_interrupt_processed_frame (id st : String) (s : StreamState) :
    (mark_interrupt_processed id st s).audioQueue = s.audioQueue
    ∧ (mark_interrupt_processed id st s).history = s.history
    ∧ (mark_interrupt_processed id st s).chunkCounter = s.chunkCounter
    ∧ (mark_interrupt_processed id st s).now = s.now
    ∧ (mark_interrupt_processed id st s).scriptQueue = s.scriptQueue
    ∧ (mark_interrupt_processed id st s).interruptQueue = s.interruptQueue := by
  unfold mark_interrupt_processed
  rcases h : hget s.interruptData id with _ | data <;> simp [h]

/-- Replacing the script touches only the script queue and `line_index`. -/
lemma replace_script_frame (script : String) (k : AudioKind) (s : StreamState) :
    (replace_script script k s).audioQueue = s.audioQueue
    ∧ (replace_script script k s).history = s.history
    ∧ (replace_script script k s).chunkCounter = s.chunkCounter
    ∧ (replace_script script k s).now = s.now
    ∧ (replace_script script k s).interruptQueue = s.interruptQueue
    ∧ (replace_script script k s).interruptData = s.interruptData := by
  unfold replace_script
  simp

/-- Requeueing touches only the interrupt queue and hash. -/
lemma requeue_interrupt_frame (record : InterruptRecord) (s : StreamState) :
    (requeue_interrupt record s).audioQueue = s.audioQueue
    ∧ (requeue_interrupt record s).history = s.history
    ∧ (requeue_interrupt record s).chunkCounter = s.chunkCounter
    ∧ (requeue_interrupt record s).now = s.now
    ∧ (requeue_interrupt record s).scriptQueue = s.scriptQueue := by
  unfold requeue_interrupt
  simp

/-- Processing a gift never touches audio, history, or the chunk counter. -/
lemma process_gift_effects (env : Env) (record : InterruptRecord) (s : StreamState) :
    (process_gift env record s).2.audioQueue = s.audioQueue
    ∧ (process_gift env record s).2.history = s.history
    ∧ (process_gift env record s).2.chunkCounter = s.chunkCounter := by
  unfold process_gift
  rcases hl : env.llm (history_snapshot s) DEFAULT_GIFT_PROMPT (remaining_script_text s) none
    with e | ns
  · simp [hl]
  · by_cases h : ns = "" <;>
      simp [hl, h, (mark_interrupt_processed_frame _ _ _).1,
        (mark_interrupt_processed_frame _ _ _).2.1,
        (mark_interrupt_processed_frame _ _ _).2.2.1,
        (replace_script_frame _ _ _).1,
        (replace_script_frame _ _ _).2.1,
        (replace_script_frame _ _ _).2.2.1]

/-- Superchat processing either leaves audio/history/counter unchanged
(an exception before the enqueue) or appends exactly one chunk together
with one matching history record. -/
lemma process_superchat_effects (env : Env) (record : InterruptRecord)
    (s : StreamState) :
    ((process_superchat env record s).2.audioQueue = s.audioQueue
      ∧ (process_superchat env record s).2.history = s.history
      ∧ (process_superchat env record s).2.chunkCounter = s.chunkCounter)
    ∨ (∃ c hr, (process_superchat env record s).2.audioQueue = s.audioQueue ++ [c]
        ∧ (process_superchat env record s).2.history = s.history ++ [hr]
        ∧ HistoryRecord.chunk_id hr = Chunk.chunk_id c
        ∧ HistoryRecord.persona hr = Chunk.speaker c
        ∧ Chunk.chunk_id c = s.chunkCounter + 1
        ∧ (process_superchat env record s).2.chunkCounter = s.chunkCounter + 1) := by
  unfold process_superchat
  rcases ht : env.tts record.persona record.message with e | audio
  · left; simp [ht]
  · rcases hm : record.message with _ | msg
    · left; simp [ht, hm]
    · right
      refine ⟨⟨s.chunkCounter + 1, audio, .superchat, msg, record.persona⟩,
        ⟨record.persona, msg, .superchat, s.chunkCounter + 1, s.now⟩, ?_⟩
      simp only [ht, hm]
      split
      next e hl => simp [enqueue_audio_chunk, append_history]
      next ns hl =>
        by_cases hns : ns = "" <;>
          simp [hns, enqueue_audio_chunk, append_history,
            (mark_interrupt_processed_frame _ _ _).1,
            (mark_interrupt_processed_frame _ _ _).2.1,
            (mark_interrupt_processed_frame _ _ _).2.2.1,
            (replace_script_frame _ _ _).1,
            (replace_script_frame _ _ _).2.1,
            (replace_script_frame _ _ _).2.2.1]

/-- Script-line handling either leaves audio/history/counter unchanged or
appends exactly one chunk together with one matching history record. -/
lemma handle_script_line_effects (env : Env) (s : StreamState) :
    ((handle_script_line env s).2.audioQueue = s.audioQueue
      ∧ (handle_script_line env s).2.history = s.history
      ∧ (handle_script_line env s).2.chunkCounter = s.chunkCounter)
    ∨ (∃ c hr, (handle_script_line env s).2.audioQueue = s.audioQueue ++ [c]
        ∧ (handle_script_line env s).2.history = s.history ++ [hr]
        ∧ HistoryRecord.chunk_id hr = Chunk.chunk_id c
        ∧ HistoryRecord.persona hr = Chunk.speaker c
        ∧ Chunk.chunk_id c = s.chunkCounter + 1
        ∧ (handle_script_line env s).2.chunkCounter = s.chunkCounter + 1) := by
  unfold handle_script_line pop_next_script_entry
  cases hq : s.scriptQueue with
  | nil => left; simp [hq]
  | cons entry rest =>
    simp only [hq]
    by_cases h0 : pyStrip entry.line = ""
    · left; simp [h0]
    · simp only [h0, if_false]
      rcases hp : parse_speaker_line (pyStrip entry.line) with e | sl
      · left; simp [hp]
      · rcases sl with ⟨speaker, line⟩
        rcases ht : env.tts (some speaker) (some line) with e | audio
        · left; simp [hp, ht]
        · right
          refine ⟨⟨s.chunkCounter + 1, audio, entry.kind, line, some speaker⟩,
            ⟨some speaker, line, entry.kind, s.chunkCounter + 1, s.now⟩, ?_⟩
          simp [hp, ht, enqueue_audio_chunk, append_history]

/-- Interrupt dispatch either leaves audio/history/counter unchanged or
appends exactly one chunk together with one matching history record. -/
lemma handle_interrupt_effects (env : Env) (record : InterruptRecord)
    (s : StreamState) :
    ((handle_interrupt env record s).2.audioQueue = s.audioQueue
      ∧ (handle_interrupt env record s).2.history = s.history
      ∧ (handle_interrupt env record s).2.chunkCounter = s.chunkCounter)
    ∨ (∃ c hr, (handle_interrupt env record s).2.audioQueue = s.audioQueue ++ [c]
        ∧ (handle_interrupt env record s).2.history = s.history ++ [hr]
        ∧ HistoryRecord.chunk_id hr = Chunk.chunk_id c
        ∧ HistoryRecord.persona hr = Chunk.speaker c
        ∧ Chunk.chunk_id c = s.chunkCounter + 1
        ∧ (handle_interrupt env record s).2.chunkCounter = s.chunkCounter + 1) := by
  unfold handle_interrupt
  by_cases h1 : record.kind = AudioKind.superchat
  · simpa [h1] using process_superchat_effects env record s
  · by_cases h2 : record.kind = AudioKind.gift
    · left; simpa [h1, h2] using process_gift_effects env record s
    · left; simp [h1, h2]

/-- One `process_once` tick either leaves audio/history/counter unchanged
or appends exactly one chunk together with one matching history record
whose id is the incremented counter. -/
lemma process_once_audio_effects (env : Env) (s : StreamState) :
    ((process_once env s).2.audioQueue = s.audioQueue
      ∧ (process_once env s).2.history = s.history
      ∧ (process_once env s).2.chunkCounter = s.chunkCounter)
    ∨ (∃ c hr, (process_once env s).2.audioQueue = s.audioQueue ++ [c]
        ∧ (process_once env s).2.history = s.history ++ [hr]
        ∧ HistoryRecord.chunk_id hr = Chunk.chunk_id c
        ∧ HistoryRecord.persona hr = Chunk.speaker c
        ∧ Chunk.chunk_id c = s.chunkCounter + 1
        ∧ (process_once env s).2.chunkCounter = s.chunkCounter + 1) := by
  unfold process_once
  rcases hp : pop_next_interrupt s with ⟨o, s1⟩
  have hframe := pop_next_interrupt_frame s
  rw [hp] at hframe
  dsimp only at hframe
  obtain ⟨ha1, hh1, hc1, -, -, -⟩ := hframe
  cases o with
  | none =>
    dsimp only
    rcases handle_script_line_effects env s1 with ⟨h1, h2, h3⟩ | ⟨c, hr, h1, h2, h3, h4, h5, h6⟩
    · left; exact ⟨by rw [h1, ha1], by rw [h2, hh1], by rw [h3, hc1]⟩
    · right
      exact ⟨c, hr, by rw [h1, ha1], by rw [h2, hh1], h3, h4,
        by rw [h5, hc1], by rw [h6, hc1]⟩
  | some record =>
    dsimp only
    rcases hh : handle_interrupt env record s1 with ⟨r, s2⟩
    have heff := handle_interrupt_effects env record s1
    rw [hh] at heff
    dsimp only at heff
    cases r with
    | ok out =>
      dsimp only
      rcases heff with ⟨h1, h2, h3⟩ | ⟨c, hr, h1, h2, h3, h4, h5, h6⟩
      · left; exact ⟨by rw [h1, ha1], by rw [h2, hh1], by rw [h3, hc1]⟩
      · right
        exact ⟨c, hr, by rw [h1, ha1], by rw [h2, hh1], h3, h4,
          by rw [h5, hc1], by rw [h6, hc1]⟩
    | error e =>
      dsimp only
      have hrq := requeue_interrupt_frame record s2
      rcases heff with ⟨h1, h2, h3⟩ | ⟨c, hr, h1, h2, h3, h4, h5, h6⟩
      · left
        exact ⟨by rw [hrq.1, h1, ha1], by rw [hrq.2.1, h2, hh1],
          by rw [hrq.2.2.1, h3, hc1]⟩
      · right
        exact ⟨c, hr, by rw [hrq.1, h1, ha1], by rw [hrq.2.1, h2, hh1], h3, h4,
          by rw [h5, hc1], by rw [hrq.2.2.1, h6, hc1]⟩

/-- C5: `_replace_script(S, k)` drops the previous queue contents, resets
`line_index` to 0, and enqueues exactly the stripped non-empty lines of
`S` in order, each tagged with category `k` and the configured default
persona (an input with no such lines leaves the queue empty); repeated
`pop_head` calls afterwards yield exactly those entries in order and then
nothing. -/
theorem script_replace_pop_spec (S : String) (k : AudioKind) (s : StreamState) :
    (replace_script S k s).scriptQueue =
      (scriptLines S).map (fun l => ⟨l, k, DEFAULT_STREAMER_PERSONA⟩)
    ∧ (replace_script S k s).lineIndex = 0
    ∧ drain_script (replace_script S k s) =
        ((scriptLines S).map (fun l => ⟨l, k, DEFAULT_STREAMER_PERSONA⟩),
          { replace_script S k s with scriptQueue := [] }) := by
  refine ⟨rfl, rfl, ?_⟩
  unfold drain_script
  exact drainFuel_spec _ _ le_rfl

/-- C1: `process_once` performs at most one unit of work, interrupt-first:
a popped interrupt is handled (the script queue head is never popped in
that case); the script queue is consulted exactly when the interrupt pop
yields nothing; and with both queues empty it returns nothing and leaves
the state — hence every queue — unchanged. -/
theorem process_once_one_unit_interrupt_first (env : Env) (s : StreamState) :
    (∀ record s1, pop_next_interrupt s = (some record, s1) →
        process_once env s =
          match handle_interrupt env record s1 with
          | (.ok out, s2) => (.ok (some out), s2)
          | (.error _, s2) => (.ok none, requeue_interrupt record s2))
    ∧ (∀ s1, pop_next_interrupt s = (none, s1) →
        process_once env s = handle_script_line env s1)
    ∧ (s.interruptQueue = [] → s.scriptQueue = [] →
        process_once env s = (.ok none, s)) := by
  refine ⟨?_, ?_, ?_⟩
  · intro record s1 h
    unfold process_once
    rw [h]
  · intro s1 h
    unfold process_once
    rw [h]
  · intro h1 h2
    unfold process_once pop_next_interrupt handle_script_line pop_next_script_entry
    rw [h1]
    dsimp only
    rw [h2]

/-- Witness for C1 at concrete states: a state holding one gift interrupt
is dispatched to the interrupt handler, a state without interrupts falls
through to the script queue, and the empty state is returned untouched. -/
theorem process_once_one_unit_interrupt_first_witness :
    (process_once envDemo
        ⟨[], ["g1"], [("g1", ⟨"g1", .gift, none, none, "queued", 0, none, none, none⟩)],
         [], [], 0, 0, 7⟩ =
      match handle_interrupt envDemo ⟨"g1", .gift, none, none, 0, "processing"⟩
          ⟨[], [],
            [("g1", ⟨"g1", .gift, none, none, "processing", 0, some 7, none, none⟩)],
            [], [], 0, 0, 7⟩ with
      | (.ok out, s2) => (.ok (some out), s2)
      | (.error _, s2) =>
        (.ok none,
          requeue_interrupt ⟨"g1", .gift, none, none, 0, "processing"⟩ s2))
    ∧ process_once envDemo ⟨[⟨"[Speed] hi", .general, "speed"⟩], [], [], [], [], 0, 0, 0⟩ =
        handle_script_line envDemo ⟨[⟨"[Speed] hi", .general, "speed"⟩], [], [], [], [], 0, 0, 0⟩
    ∧ process_once envDemo initialState = (.ok none, initialState) := by
  refine ⟨?_, ?_, ?_⟩
  · exact (process_once_one_unit_interrupt_first envDemo
      ⟨[], ["g1"], [("g1", ⟨"g1", .gift, none, none, "queued", 0, none, none, none⟩)],
       [], [], 0, 0, 7⟩).1
      ⟨"g1", .gift, none, none, 0, "processing"⟩
      ⟨[], [], [("g1", ⟨"g1", .gift, none, none, "processing", 0, some 7, none, none⟩)],
       [], [], 0, 0, 7⟩ (by rfl)
  · exact (process_once_one_unit_interrupt_first envDemo
      ⟨[⟨"[Speed] hi", .general, "speed"⟩], [], [], [], [], 0, 0, 0⟩).2.1
      ⟨[⟨"[Speed] hi", .general, "speed"⟩], [], [], [], [], 0, 0, 0⟩ (by rfl)
  · exact (process_once_one_unit_interrupt_first envDemo initialState).2.2 rfl rfl

/-- C4: if any step of handling a popped interrupt raises before it is
marked processed, `process_once` swallows the exception and returns
nothing, after requeueing the interrupt: the id goes back to the queue
tail and the stored record is rewritten with the original `created_at`
preserved and a `retry_at` recorded. -/
theorem interrupt_requeue_on_failure (env : Env) (s : StreamState)
    (record : InterruptRecord) (s1 s2 : StreamState) (e : PyErr)
    (hpop : pop_next_interrupt s = (some record, s1))
    (hfail : handle_interrupt env record s1 = (.error e, s2)) :
    process_once env s = (.ok none, requeue_interrupt record s2)
    ∧ (requeue_interrupt record s2).interruptQueue
        = s2.interruptQueue ++ [record.interrupt_id]
    ∧ hget (requeue_interrupt record s2).interruptData record.interrupt_id
        = some ⟨record.interrupt_id, record.kind, record.persona, record.message,
            record.status, record.created_at, none, none, some s2.now⟩
    ∧ (∃ data, hget s.interruptData record.interrupt_id = some data
        ∧ record.created_at = data.created_at) := by
  refine ⟨?_, ?_, ?_, ?_⟩
  · unfold process_once
    rw [hpop]
    dsimp only
    rw [hfail]
  · unfold requeue_interrupt
    simp
  · unfold requeue_interrupt
    simp [hget_hset]
  · unfold pop_next_interrupt at hpop
    split at hpop
    · simp at hpop
    · split at hpop
      · simp at hpop
      · rename_i id rest hq data hg
        simp only [Prod.mk.injEq, Option.some.injEq] at hpop
        obtain ⟨h1, -⟩ := hpop
        subst h1
        exact ⟨data, by simpa using hg, rfl⟩

/-- Witness for C4: a queued superchat whose TTS call raises is requeued
and `process_once` returns nothing. -/
theorem interrupt_requeue_on_failure_witness :
    process_once envFail
        ⟨[], ["s1"],
         [("s1", ⟨"s1", .superchat, some "speed", some "Yo!", "queued", 3, none, none, none⟩)],
         [], [], 0, 0, 9⟩ =
      (.ok none,
        requeue_interrupt ⟨"s1", .superchat, some "speed", some "Yo!", 3, "processing"⟩
          ⟨[], [],
            [("s1", ⟨"s1", .superchat, some "speed", some "Yo!", "processing", 3, some 9, none, none⟩)],
            [], [], 0, 0, 9⟩)
    ∧ (∃ data,
        hget [("s1", (⟨"s1", .superchat, some "speed", some "Yo!", "queued", 3, none, none,
            none⟩ : InterruptData))] "s1" = some data
        ∧ (3 : Nat) = data.created_at) := by
  have h := interrupt_requeue_on_failure envFail
    ⟨[], ["s1"],
      [("s1", ⟨"s1", .superchat, some "speed", some "Yo!", "queued", 3, none, none, none⟩)],
      [], [], 0, 0, 9⟩
    ⟨"s1", .superchat, some "speed", some "Yo!", 3, "processing"⟩
    ⟨[], [],
      [("s1", ⟨"s1", .superchat, some "speed", some "Yo!", "processing", 3, some 9, none, none⟩)],
      [], [], 0, 0, 9⟩
    ⟨[], [],
      [("s1", ⟨"s1", .superchat, some "speed", some "Yo!", "processing", 3, some 9, none, none⟩)],
      [], [], 0, 0, 9⟩
    .remoteError (by rfl) (by rfl)
  exact ⟨h.1, h.2.2.2⟩

/-- Pairing invariant: every queued audio chunk has a history record with
the same chunk id and the same speaker. -/
def ChunkHistoryMatch (aq : List Chunk) (hist : List HistoryRecord) : Prop :=
  ∀ c ∈ aq, ∃ hr ∈ hist, HistoryRecord.chunk_id hr = Chunk.chunk_id c
    ∧ HistoryRecord.persona hr = Chunk.speaker c

/-- Complete case description of `_process_superchat`: it either raises,
or it succeeds having appended exactly one chunk and one matching history
record. -/
lemma process_superchat_ok_describe (env : Env) (record : InterruptRecord)
    (s : StreamState) :
    (∃ e s', process_superchat env record s = (.error e, s'))
    ∨ (∃ audio msg out s2,
        process_superchat env record s = (.ok out, s2)
        ∧ record.message = some msg
        ∧ s2.audioQueue = s.audioQueue ++
            [⟨s.chunkCounter + 1, audio, .superchat, msg, record.persona⟩]
        ∧ s2.history = s.history ++
            [⟨record.persona, msg, .superchat, s.chunkCounter + 1, s.now⟩]) := by
  unfold process_superchat
  rcases ht : env.tts record.persona record.message with e | audio
  · left; exact ⟨e, s, by simp [ht]⟩
  · rcases hm : record.message with _ | msg
    · left; exact ⟨.valueError, s, by simp [ht, hm]⟩
    · simp only [ht, hm]
      split
      next e hl => left; exact ⟨e, _, rfl⟩
      next ns hl =>
        right
        refine ⟨audio, msg, _, _, rfl, rfl, ?_, ?_⟩
        · by_cases hns : ns = "" <;>
            simp [hns, enqueue_audio_chunk, append_history,
              (mark_interrupt_processed_frame _ _ _).1,
              (replace_script_frame _ _ _).1]
        · by_cases hns : ns = "" <;>
            simp [hns, enqueue_audio_chunk, append_history,
              (mark_interrupt_processed_frame _ _ _).2.1,
              (replace_script_frame _ _ _).2.1]

/-- C2: a successfully processed superchat and a successfully processed
script line each enqueue exactly one audio chunk and append exactly one
history record carrying the same chunk id and speaker (the record is
appended only together with — never before — the chunk); consequently one
processing tick preserves the invariant that every queued chunk has a
matching history record. -/
theorem chunk_history_pairing (env : Env) (s : StreamState) :
    (∀ record out s2, process_superchat env record s = (.ok out, s2) →
      ∃ audio msg, record.message = some msg
        ∧ s2.audioQueue = s.audioQueue ++
            [⟨s.chunkCounter + 1, audio, .superchat, msg, record.persona⟩]
        ∧ s2.history = s.history ++
            [⟨record.persona, msg, .superchat, s.chunkCounter + 1, s.now⟩])
    ∧ (∀ out s2, handle_script_line env s = (.ok (some out), s2) →
      ∃ k audio text speaker,
        s2.audioQueue = s.audioQueue ++
            [⟨s.chunkCounter + 1, audio, k, text, some speaker⟩]
        ∧ s2.history = s.history ++
            [⟨some speaker, text, k, s.chunkCounter + 1, s.now⟩])
    ∧ (ChunkHistoryMatch s.audioQueue s.history →
        ChunkHistoryMatch (process_once env s).2.audioQueue
          (process_once env s).2.history) := by
  refine ⟨?_, ?_, ?_⟩
  · intro record out s2 h
    rcases process_superchat_ok_describe env record s with
      ⟨e, s', heq⟩ | ⟨audio, msg, out', s2', heq, hmsg, ha, hh⟩
    · rw [h] at heq; simp at heq
    · rw [h] at heq
      simp only [Prod.mk.injEq, Except.ok.injEq] at heq
      obtain ⟨-, hs2⟩ := heq
      subst hs2
      exact ⟨audio, msg, hmsg, ha, hh⟩
  · intro out s2 h
    unfold handle_script_line pop_next_script_entry at h
    cases hq : s.scriptQueue with
    | nil => rw [hq] at h; simp at h
    | cons entry rest =>
      rw [hq] at h
      dsimp only at h
      by_cases h0 : pyStrip entry.line = ""
      · rw [if_pos h0] at h; simp at h
      · rw [if_neg h0] at h
        rcases hp : parse_speaker_line (pyStrip entry.line) with e | sl
        · rw [hp] at h; simp at h
        · rw [hp] at h
          rcases sl with ⟨speaker, line⟩
          dsimp only at h
          rcases ht : env.tts (some speaker) (some line) with e | audio
          · rw [ht] at h; simp at h
          · rw [ht] at h
            simp only [Prod.mk.injEq, Except.ok.injEq] at h
            obtain ⟨-, hs2⟩ := h
            subst hs2
            exact ⟨entry.kind, audio, line, speaker,
              by simp [enqueue_audio_chunk, append_history],
              by simp [enqueue_audio_chunk, append_history]⟩
  · intro hinv
    rcases process_once_audio_effects env s with ⟨h1, h2, -⟩ | ⟨c, hr, h1, h2, h3, h4, -, -⟩
    · rw [h1, h2]; exact hinv
    · rw [h1, h2]
      intro c' hc'
      rcases List.mem_append.mp hc' with hmem | hmem
      · obtain ⟨hr', hhr', hid, hsp⟩ := hinv c' hmem
        exact ⟨hr', List.mem_append_left _ hhr', hid, hsp⟩
      · have hc : c' = c := by simpa using hmem
        subst hc
        exact ⟨hr, List.mem_append_right _ (by simp), h3, h4⟩

/-- Witness for C2: a concrete superchat, a concrete script line, and the
invariant after one tick from the boot state. -/
theorem chunk_history_pairing_witness :
    (∃ audio msg, (some "Yo!" : Option String) = some msg
      ∧ ([⟨1, "AAAA", .superchat, "Yo!", some "speed"⟩] : List Chunk)
          = [] ++ [⟨0 + 1, audio, .superchat, msg, some "speed"⟩]
      ∧ ([⟨some "speed", "Yo!", .superchat, 1, 0⟩] : List HistoryRecord)
          = [] ++ [⟨some "speed", msg, .superchat, 0 + 1, 0⟩])
    ∧ (∃ k audio text speaker,
        ([⟨1, "AAAA", .general, "hi", some "speed"⟩] : List Chunk)
          = [] ++ [⟨0 + 1, audio, k, text, some speaker⟩]
      ∧ ([⟨some "speed", "hi", .general, 1, 0⟩] : List HistoryRecord)
          = [] ++ [⟨some speaker, text, k, 0 + 1, 0⟩])
    ∧ ChunkHistoryMatch (process_once envDemo initialState).2.audioQueue
        (process_once envDemo initialState).2.history := by
  refine ⟨?_, ?_, ?_⟩
  · exact (chunk_history_pairing envDemo initialState).1
      ⟨"s1", .superchat, some "speed", some "Yo!", 3, "processing"⟩
      (.superchatDone 1 (some "speed") "Yo!")
      ⟨[], [], [], [⟨1, "AAAA", .superchat, "Yo!", some "speed"⟩],
        [⟨some "speed", "Yo!", .superchat, 1, 0⟩], 1, 0, 0⟩ (by rfl)
  · exact (chunk_history_pairing envDemo
      ⟨[⟨"[Speed] hi", .general, "speed"⟩], [], [], [], [], 0, 0, 0⟩).2.1
      (.lineDone .general 1 "speed" "hi")
      ⟨[], [], [], [⟨1, "AAAA", .general, "hi", some "speed"⟩],
        [⟨some "speed", "hi", .general, 1, 0⟩], 1, 1, 0⟩ (by rfl)
  · exact (chunk_history_pairing envDemo initialState).2.2
      (fun c hc => absurd hc (List.not_mem_nil c))

/-- C3: processing a gift interrupt enqueues no audio chunk and appends no
history record; when the LLM returns a non-empty script the Script Queue
is replaced by its stripped non-empty lines under category `gift` (with
the default persona), while an empty script leaves the queue intact; and
in either case the stored interrupt record is marked with the terminal
status `queued_script`. -/
theorem gift_interrupt_spec (env : Env) (record : InterruptRecord)
    (s : StreamState) (new_script : String)
    (hkind : record.kind = AudioKind.gift)
    (hllm : env.llm (history_snapshot s) DEFAULT_GIFT_PROMPT
        (remaining_script_text s) none = .ok new_script) :
    ∃ s3, handle_interrupt env record s = (.ok (.giftDone (new_script != "")), s3)
      ∧ s3.audioQueue = s.audioQueue
      ∧ s3.history = s.history
      ∧ s3.scriptQueue = (if new_script = "" then s.scriptQueue
          else (scriptLines new_script).map
            (fun l => ⟨l, .gift, DEFAULT_STREAMER_PERSONA⟩))
      ∧ (∀ data, hget s.interruptData record.interrupt_id = some data →
          hget s3.interruptData record.interrupt_id =
            some { data with status := "queued_script", completed_at := some s.now }) := by
  refine ⟨mark_interrupt_processed record.interrupt_id "queued_script"
      (if new_script = "" then s else replace_script new_script .gift s),
    ?_, ?_, ?_, ?_, ?_⟩
  · unfold handle_interrupt process_gift
    rw [hkind, hllm]
    simp
  · by_cases hns : new_script = "" <;>
      simp [hns, (mark_interrupt_processed_frame _ _ _).1,
        (replace_script_frame _ _ _).1]
  · by_cases hns : new_script = "" <;>
      simp [hns, (mark_interrupt_processed_frame _ _ _).2.1,
        (replace_script_frame _ _ _).2.1]
  · by_cases hns : new_script = "" <;>
      simp [hns, (mark_interrupt_processed_frame _ _ _).2.2.2.2.1, replace_script]
  · intro data hdata
    by_cases hns : new_script = ""
    · simp [hns, mark_interrupt_processed, hdata, hget_hset]
    · simp [hns, mark_interrupt_processed,
        (replace_script_frame _ _ _).2.2.2.2.2, replace_script, hdata, hget_hset]

/-- Witness for C3: a concrete gift interrupt under the demo oracle (whose
LLM returns the empty script): no audio, no history, script queue intact,
record marked `queued_script`. -/
theorem gift_interrupt_spec_witness :
    ∃ s3, handle_interrupt envDemo ⟨"g1", .gift, none, none, 2, "processing"⟩
        ⟨[⟨"[Speed] hi", .general, "speed"⟩], [],
          [("g1", ⟨"g1", .gift, none, none, "processing", 2, some 7, none, none⟩)],
          [], [], 0, 0, 7⟩ =
        (.ok (.giftDone (("" : String) != "")), s3)
      ∧ s3.audioQueue = []
      ∧ s3.history = []
      ∧ s3.scriptQueue = (if ("" : String) = "" then [⟨"[Speed] hi", .general, "speed"⟩]
          else (scriptLines "").map (fun l => ⟨l, .gift, DEFAULT_STREAMER_PERSONA⟩))
      ∧ (∀ data,
          hget [("g1", (⟨"g1", .gift, none, none, "processing", 2, some 7, none,
              none⟩ : InterruptData))] "g1" = some data →
          hget s3.interruptData "g1" =
            some { data with status := "queued_script", completed_at := some 7 }) := by
  exact gift_interrupt_spec envDemo ⟨"g1", .gift, none, none, 2, "processing"⟩
    ⟨[⟨"[Speed] hi", .general, "speed"⟩], [],
      [("g1", ⟨"g1", .gift, none, none, "processing", 2, some 7, none, none⟩)],
      [], [], 0, 0, 7⟩ "" rfl rfl

/-- C7: interrupt registration rejects category `general` (a `ValueError`
in the service, a 422 at the HTTP layer); a superchat request missing a
truthy `message` or `persona` is rejected with 422 and no record is
stored; a valid request stores the freshly generated id with status `queued`,
appends the id to the queue tail, and returns it. -/
theorem interrupt_registration_spec (kind : AudioKind)
    (persona message : Option String) (uuid : String) (s : StreamState) :
    register_interrupt AudioKind.general persona message uuid s = .error .valueError
    ∧ (kind = AudioKind.general →
        http_trigger_interrupt kind persona message uuid s = (.rejected422, s))
    ∧ (kind = AudioKind.superchat → (message.getD "" = "" ∨ persona.getD "" = "") →
        http_trigger_interrupt kind persona message uuid s = (.rejected422, s))
    ∧ (validate_interrupt_request kind persona message = true →
        http_trigger_interrupt kind persona message uuid s =
          (.accepted ⟨uuid, kind, "queued"⟩,
            { s with
                interruptData := hset s.interruptData uuid
                  ⟨uuid, kind, persona, message, "queued", s.now, none, none, none⟩,
                interruptQueue := s.interruptQueue ++ [uuid] })
        ∧ hget (http_trigger_interrupt kind persona message uuid s).2.interruptData uuid
            = some ⟨uuid, kind, persona, message, "queued", s.now, none, none, none⟩) := by
  refine ⟨rfl, ?_, ?_, ?_⟩
  · intro hk
    subst hk
    simp [http_trigger_interrupt, validate_interrupt_request]
  · intro hk hmp
    subst hk
    unfold http_trigger_interrupt validate_interrupt_request
    rcases hmp with hm | hp
    · simp [hm]
    · simp [hp]
  · intro hv
    have hkg : kind ≠ AudioKind.general := by
      intro hk
      subst hk
      simp [validate_interrupt_request] at hv
    constructor
    · unfold http_trigger_interrupt
      rw [hv]
      simp only [if_true]
      unfold register_interrupt
      rw [if_neg hkg]
    · unfold http_trigger_interrupt
      rw [hv]
      simp only [if_true]
      unfold register_interrupt
      rw [if_neg hkg]
      simp [hget_hset]

/-- Witness for C7 at concrete inputs: a `general` request is rejected, a
superchat without a message is rejected, and a well-formed superchat is
stored and acknowledged. -/
theorem interrupt_registration_spec_witness :
    http_trigger_interrupt AudioKind.general none none "u0" initialState
      = (.rejected422, initialState)
    ∧ http_trigger_interrupt AudioKind.superchat (some "speed") none "u0" initialState
      = (.rejected422, initialState)
    ∧ http_trigger_interrupt AudioKind.superchat (some "speed") (some "Yo!") "u1" initialState
      = (.accepted ⟨"u1", AudioKind.superchat, "queued"⟩,
          { initialState with
              interruptData := hset initialState.interruptData "u1"
                ⟨"u1", .superchat, some "speed", some "Yo!", "queued", 0, none, none, none⟩,
              interruptQueue := initialState.interruptQueue ++ ["u1"] }) := by
  refine ⟨?_, ?_, ?_⟩
  · exact (interrupt_registration_spec AudioKind.general none none "u0" initialState).2.1 rfl
  · exact (interrupt_registration_spec AudioKind.superchat (some "speed") none "u0"
      initialState).2.2.1 rfl (Or.inl rfl)
  · exact ((interrupt_registration_spec AudioKind.superchat (some "speed") (some "Yo!") "u1"
      initialState).2.2.2 (by rfl)).1

/-- Drain loop only consumes from the front: what remains is a suffix. -/
lemma fetchAux_suffix : ∀ (l acc : List Chunk), (fetchAux acc l).2 <:+ l := by
  intro l
  induction l with
  | nil => intro acc; simp [fetchAux]
  | cons c rest ih =>
    intro acc
    by_cases h : c.speaker = none
    · simp only [fetchAux, h, if_true]
      exact List.suffix_cons c rest
    · simpa [fetchAux, h] using (ih (c :: acc)).trans (List.suffix_cons c rest)

/-- A drain that raised no error returned the accumulator followed by the
whole remaining queue. -/
lemma fetchAux_ok : ∀ (l acc r rest : List Chunk),
    fetchAux acc l = (.ok r, rest) → r = acc.reverse ++ l := by
  intro l
  induction l with
  | nil =>
    intro acc r rest h
    simp [fetchAux] at h
    simp [h.1.symm]
  | cons c rest0 ih =>
    intro acc r rest h
    by_cases hs : c.speaker = none
    · simp [fetchAux, hs] at h
    · rw [show fetchAux acc (c :: rest0) = fetchAux (c :: acc) rest0 from by
        simp [fetchAux, hs]] at h
      have := ih (c :: acc) r rest h
      simp [this]

/-- Audio-queue id invariant: queued ids are strictly increasing and all
bounded by the chunk counter. -/
def AudioIdInv (s : StreamState) : Prop :=
  List.Chain' (fun a b => a < b) (s.audioQueue.map Chunk.chunk_id)
  ∧ ∀ c ∈ s.audioQueue, Chunk.chunk_id c ≤ s.chunkCounter

/-- The chunk counter never decreases under any system operation. -/
lemma runOp_counter_mono (op : Op) (s : StreamState) :
    s.chunkCounter ≤ (runOp op s).chunkCounter := by
  cases op with
  | tick env =>
    rcases process_once_audio_effects env s with ⟨-, -, h3⟩ | ⟨c, hr, -, -, -, -, -, h6⟩
    · show s.chunkCounter ≤ (process_once env s).2.chunkCounter
      omega
    · show s.chunkCounter ≤ (process_once env s).2.chunkCounter
      omega
  | register kind persona message uuid =>
    by_cases hk : kind = AudioKind.general <;>
      simp [runOp, register_interrupt, hk]
  | drain => simp [runOp, fetch_audio_chunks]

/-- Every system operation preserves the audio-queue id invariant. -/
lemma runOp_inv (op : Op) (s : StreamState) (h : AudioIdInv s) :
    AudioIdInv (runOp op s) := by
  cases op with
  | tick env =>
    show AudioIdInv (process_once env s).2
    rcases process_once_audio_effects env s with ⟨h1, -, h3⟩ | ⟨c, hr, h1, -, -, -, h5, h6⟩
    · constructor
      · rw [h1]; exact h.1
      · intro c hc
        rw [h1] at hc
        rw [h3]
        exact h.2 c hc
    · constructor
      · rw [h1, List.map_append]
        rw [List.chain'_append]
        refine ⟨h.1, by simp, ?_⟩
        intro x hx y hy
        simp only [List.map_cons, List.map_nil, List.head?_cons, Option.mem_def,
          Option.some.injEq] at hy
        obtain ⟨hne, rfl⟩ := List.mem_getLast?_eq_getLast hx
        have hmem : (s.audioQueue.map Chunk.chunk_id).getLast hne
            ∈ s.audioQueue.map Chunk.chunk_id := List.getLast_mem hne
        obtain ⟨ch, hch, hcheq⟩ := List.mem_map.mp hmem
        have hb := h.2 ch hch
        rw [← hy, h5, ← hcheq]
        omega
      · intro c' hc'
        rw [h1] at hc'
        rw [h6]
        rcases List.mem_append.mp hc' with hm | hm
        · exact le_trans (h.2 c' hm) (Nat.le_succ _)
        · have : c' = c := by simpa using hm
          subst this
          rw [h5]
  | register kind persona message uuid =>
    by_cases hk : kind = AudioKind.general
    · simpa [runOp, register_interrupt, hk] using h
    · constructor
      · simpa [runOp, register_interrupt, hk] using h.1
      · intro c hc
        simp only [runOp, register_interrupt, hk] at hc ⊢
        simp at hc ⊢
        exact h.2 c hc
  | drain =>
    have hsuf := fetchAux_suffix s.audioQueue []
    constructor
    · show List.Chain' _ (((fetch_audio_chunks s).2.audioQueue).map Chunk.chunk_id)
      have : (fetch_audio_chunks s).2.audioQueue = (fetchAux [] s.audioQueue).2 := rfl
      rw [this]
      exact h.1.suffix (hsuf.map Chunk.chunk_id)
    · intro c hc
      have hmem : c ∈ s.audioQueue := hsuf.subset hc
      exact h.2 c hmem

/-- The invariant is preserved along any operation sequence. -/
lemma run_inv (ops : List Op) (s : StreamState) (h : AudioIdInv s) :
    AudioIdInv (run ops s) := by
  induction ops generalizing s with
  | nil => exact h
  | cons op ops ih =>
    have : run (op :: ops) s = run ops (runOp op s) := rfl
    rw [this]
    exact ih (runOp op s) (runOp_inv op s h)

/-- C6: audio chunk ids are strictly increasing across the process
lifetime: `enqueue_audio_chunk` always returns the incremented counter,
no reachable operation (processor ticks, interrupt registrations, audio
drains — `reset_state`, which would clear the counter, has no caller in
the repository) ever decreases the counter, the strictly-increasing /
counter-bounded queue invariant is preserved by every operation sequence,
and hence both the queue contents and any successfully drained chunk
sequence from the boot state have strictly increasing `chunk_id` values. -/
theorem audio_chunk_ids_monotone :
    (∀ kind audio transcript speaker s,
        (enqueue_audio_chunk kind audio transcript speaker s).1 = s.chunkCounter + 1
        ∧ (enqueue_audio_chunk kind audio transcript speaker s).2.chunkCounter
            = s.chunkCounter + 1
        ∧ (enqueue_audio_chunk kind audio transcript speaker s).2.audioQueue.map
              Chunk.chunk_id
            = s.audioQueue.map Chunk.chunk_id ++ [s.chunkCounter + 1])
    ∧ (∀ op s, s.chunkCounter ≤ (runOp op s).chunkCounter)
    ∧ (∀ ops s, AudioIdInv s → AudioIdInv (run ops s))
    ∧ (∀ ops, List.Chain' (fun a b => a < b)
        ((run ops initialState).audioQueue.map Chunk.chunk_id))
    ∧ (∀ ops chunks, (fetch_audio_chunks (run ops initialState)).1 = .ok chunks →
        List.Chain' (fun a b => a < b) (chunks.map Chunk.chunk_id)) := by
  have hinit : AudioIdInv initialState :=
    ⟨List.chain'_nil, fun c hc => absurd hc (List.not_mem_nil c)⟩
  refine ⟨?_, runOp_counter_mono, run_inv, ?_, ?_⟩
  · intro kind audio transcript speaker s
    exact ⟨rfl, rfl, by simp [enqueue_audio_chunk]⟩
  · intro ops
    exact (run_inv ops initialState hinit).1
  · intro ops chunks hfetch
    have hinv := run_inv ops initialState hinit
    have : chunks = (run ops initialState).audioQueue := by
      have h0 : fetchAux [] (run ops initialState).audioQueue
          = ((fetch_audio_chunks (run ops initialState)).1,
             (fetch_audio_chunks (run ops initialState)).2.audioQueue) := rfl
      rw [hfetch] at h0
      simpa using fetchAux_ok (run ops initialState).audioQueue [] chunks
        (fetch_audio_chunks (run ops initialState)).2.audioQueue h0
    rw [this]
    exact hinv.1

/-- Witness for C6: a concrete run (two superchat registrations then two
ticks) produces queue ids `[1, 2]`, and the drained sequence is strictly
increasing. -/
theorem audio_chunk_ids_monotone_witness :
    (enqueue_audio_chunk .general "AAAA" "hi" (some "speed") initialState).1 = 1
    ∧ AudioIdInv (run
        [.register .superchat (some "speed") (some "Yo") "u1",
         .register .superchat (some "speed") (some "Hey") "u2",
         .tick envDemo, .tick envDemo] initialState)
    ∧ List.Chain' (fun a b => a < b)
        (([⟨1, "AAAA", .superchat, "Yo", some "speed"⟩,
           ⟨2, "AAAA", .superchat, "Hey", some "speed"⟩] : List Chunk).map
          Chunk.chunk_id) := by
  refine ⟨?_, ?_, ?_⟩
  · exact (audio_chunk_ids_monotone.1 .general "AAAA" "hi" (some "speed") initialState).1
  · exact audio_chunk_ids_monotone.2.2.1
      [.register .superchat (some "speed") (some "Yo") "u1",
       .register .superchat (some "speed") (some "Hey") "u2",
       .tick envDemo, .tick envDemo] initialState
      ⟨List.chain'_nil, fun c hc => absurd hc (List.not_mem_nil c)⟩
  · exact audio_chunk_ids_monotone.2.2.2.2
      [.register .superchat (some "speed") (some "Yo") "u1",
       .register .superchat (some "speed") (some "Hey") "u2",
       .tick envDemo, .tick envDemo]
      [⟨1, "AAAA", .superchat, "Yo", some "speed"⟩,
       ⟨2, "AAAA", .superchat, "Hey", some "speed"⟩] (by rfl)

/-- When every allowed attempt raises, the retry loop re-raises the error
(after exhausting its attempts). -/
lemma retryFrom_all_fail (outcome : Nat → Except PyErr String) (e : PyErr) :
    ∀ left attempt, (∀ i, attempt ≤ i → i ≤ attempt + left → outcome i = .error e) →
      retryFrom outcome attempt left = .error e := by
  intro left
  induction left with
  | zero =>
    intro attempt h
    simpa [retryFrom] using h attempt le_rfl (by omega)
  | succ n ih =>
    intro attempt h
    have h1 : outcome attempt = .error e := h attempt le_rfl (by omega)
    simp only [retryFrom, h1]
    exact ih (attempt + 1) (fun i hi1 hi2 => h i (by omega) (by omega))

/-- The retry loop returns the first successful attempt within its
allowance. -/
lemma retryFrom_first_ok (outcome : Nat → Except PyErr String) (a : String) :
    ∀ left attempt k, attempt ≤ k → k ≤ attempt + left →
      (∀ i, attempt ≤ i → i < k → ∃ e, outcome i = .error e) →
      outcome k = .ok a → retryFrom outcome attempt left = .ok a := by
  intro left
  induction left with
  | zero =>
    intro attempt k h1 h2 herr hk
    have hak : attempt = k := by omega
    subst hak
    simpa [retryFrom] using hk
  | succ n ih =>
    intro attempt k h1 h2 herr hk
    by_cases hak : attempt = k
    · subst hak
      simp [retryFrom, hk]
    · obtain ⟨e, he⟩ := herr attempt le_rfl (by omega)
      simp only [retryFrom, he]
      exact ih (attempt + 1) k (by omega) (by omega)
        (fun i hi1 hi2 => herr i (by omega) hi2) hk

/-- Counterexample to C8 as stated: the TTS retry wrapper does give up
after a fixed number of failures.  With an outcome that fails on attempts
1..10000 and would succeed on attempt 10001, the wrapper re-raises the
error instead of ever reaching the successful attempt — the attempt count
is bounded by `stop_after_attempt(10000)`, not unbounded. -/
theorem retry_unbounded_attempts_counterexample :
    generate_audio_with_reference_retry
        (fun n => if n ≤ 10000 then Except.error PyErr.remoteError else Except.ok "AAAA")
      = .error .remoteError
    ∧ (fun n => if n ≤ 10000 then Except.error PyErr.remoteError else Except.ok "AAAA")
        10001 = Except.ok "AAAA" := by
  constructor
  · unfold generate_audio_with_reference_retry
    exact retryFrom_all_fail _ PyErr.remoteError 9999 1
      (fun i h1 h2 => by
        have h3 : i ≤ 10000 := by omega
        simp [h3])
  · norm_num

/-- C8 (amended): each single TTS request is wrapped in exponential
backoff — wait `2^(n-1)` seconds after attempt `n`, clamped to the band
[1 s, 10 s] — and a retry is triggered by any raised error; but the number
of attempts is capped at 10000 (`stop_after_attempt(10000)`): after 10000
consecutive failures the last error is re-raised, while a first success at
any attempt `k ≤ 10000` is returned. -/
theorem retry_bounded_backoff :
    retry_wait 1 = 1
    ∧ (∀ n, 1 ≤ retry_wait n ∧ retry_wait n ≤ 10)
    ∧ (∀ n, 1 ≤ n → n ≤ 4 → retry_wait n = 2 ^ (n - 1))
    ∧ (∀ n, 5 ≤ n → retry_wait n = 10)
    ∧ (∀ outcome e, (∀ i, 1 ≤ i → i ≤ 10000 → outcome i = Except.error e) →
        generate_audio_with_reference_retry outcome = .error e)
    ∧ (∀ outcome (a : String) k, 1 ≤ k → k ≤ 10000 →
        (∀ i, 1 ≤ i → i < k → ∃ e, outcome i = Except.error e) →
        outcome k = .ok a →
        generate_audio_with_reference_retry outcome = .ok a) := by
  refine ⟨rfl, ?_, ?_, ?_, ?_, ?_⟩
  · intro n
    exact ⟨Nat.le_min.mpr ⟨by norm_num, Nat.le_max_left 1 _⟩, Nat.min_le_left _ _⟩
  · intro n h1 h4
    interval_cases n <;> decide
  · intro n h5
    have h16 : 16 ≤ 2 ^ (n - 1) := by
      calc (16 : Nat) = 2 ^ 4 := by norm_num
      _ ≤ 2 ^ (n - 1) := Nat.pow_le_pow_right (by norm_num) (by omega)
    unfold retry_wait
    rw [Nat.max_eq_right (by omega), Nat.min_eq_left (by omega)]
  · intro outcome e h
    unfold generate_audio_with_reference_retry
    exact retryFrom_all_fail outcome e 9999 1 (fun i hi1 hi2 => h i hi1 (by omega))
  · intro outcome a k h1 h2 herr hk
    unfold generate_audio_with_reference_retry
    exact retryFrom_first_ok outcome a 9999 1 k h1 (by omega)
      (fun i hi1 hi2 => herr i hi1 hi2) hk

/-- Witness for the amended C8: an always-failing outcome exhausts the
10000 attempts and re-raises; an outcome that first succeeds on attempt 3
returns that success; the wait after attempt 2 is 2 s. -/
theorem retry_bounded_backoff_witness :
    generate_audio_with_reference_retry (fun _ => Except.error PyErr.remoteError)
      = .error .remoteError
    ∧ generate_audio_with_reference_retry
        (fun n => if n = 3 then Except.ok "AAAA" else Except.error PyErr.remoteError)
      = .ok "AAAA"
    ∧ retry_wait 2 = 2 := by
  refine ⟨?_, ?_, ?_⟩
  · exact retry_bounded_backoff.2.2.2.2.1 _ PyErr.remoteError (fun i h1 h2 => rfl)
  · exact retry_bounded_backoff.2.2.2.2.2 _ "AAAA" 3 (by norm_num) (by norm_num)
      (fun i h1 h2 => ⟨PyErr.remoteError, by
        have h3 : i ≠ 3 := by omega
        simp [h3]⟩)
      (by simp)
  · exact retry_bounded_backoff.2.2.1 2 (by norm_num) (by norm_num)

/-- Splitting on a separator absent from the string yields the whole
string as the single part. -/
lemma pySplitAux_not_mem (sep : Char) : ∀ (l cur : List Char), sep ∉ l →
    pySplitAux sep cur l = [cur.reverse ++ l] := by
  intro l
  induction l with
  | nil => intro cur h; simp [pySplitAux]
  | cons c rest ih =>
    intro cur h
    have hc : ¬c = sep := fun hh => h (by simp [hh])
    simp only [pySplitAux, hc, if_false]
    rw [ih (c :: cur) (fun hm => h (List.mem_cons_of_mem c hm))]
    simp

/-- Python `line.split(sep)` for a separator not occurring in `line`. -/
lemma pySplit_not_mem (sep : Char) (s : String) (h : sep ∉ s.data) :
    pySplit sep s = [s] := by
  unfold pySplit
  rw [pySplitAux_not_mem sep s.data [] h]
  cases s
  rfl

/-- The speaker-parsing step raises `IndexError` exactly when the line
lacks a `[` or lacks a `]` (either `split` then yields a single part and
the `[1]` access is out of range). -/
lemma parse_speaker_line_error (line : String)
    (h : '[' ∉ line.data ∨ ']' ∉ line.data) :
    parse_speaker_line line = .error .indexError := by
  unfold parse_speaker_line
  rcases h with h | h
  · rw [pySplit_not_mem '[' line h]
    rfl
  · cases hfst : (pySplit '[' line).get? 1 with
    | none => rfl
    | some seg =>
      rw [pySplit_not_mem ']' line h]
      rfl

/-- Counterexample to C10 as stated: the line `"]a["` contains no `[`
followed by a later `]` (so the claim's condition holds), yet
`process_once` raises no `IndexError` — it synthesizes and enqueues an
audio chunk for the line, with the empty speaker parsed out of it. -/
theorem script_line_bracket_counterexample :
    (∀ j, j < ("]a[" : String).data.length → ∀ i, i < j →
        ¬(("]a[" : String).data.getD i ' ' = '['
          ∧ ("]a[" : String).data.getD j ' ' = ']'))
    ∧ pyStrip "]a[" ≠ ""
    ∧ process_once envDemo ⟨[⟨"]a[", .general, "speed"⟩], [], [], [], [], 0, 0, 0⟩
      = (.ok (some (.lineDone .general 1 "" "a[")),
         ⟨[], [], [], [⟨1, "AAAA", .general, "a[", some ""⟩],
          [⟨some "", "a[", .general, 1, 0⟩], 1, 1, 0⟩) := by
  refine ⟨by decide, by decide, by rfl⟩

/-- C10 (amended): with no interrupt pending, popping a script entry whose
stripped line is non-empty but lacks a `[` or lacks a `]` makes the
speaker-parsing step raise an `IndexError` that propagates out of
`process_once`; the entry was already popped, so the line is lost — no
audio chunk is enqueued and no history record is appended for it. -/
theorem script_line_missing_bracket_error (env : Env) (s : StreamState)
    (entry : ScriptEntry) (rest : List ScriptEntry)
    (hiq : s.interruptQueue = [])
    (hq : s.scriptQueue = entry :: rest)
    (hne : pyStrip entry.line ≠ "")
    (hbr : '[' ∉ (pyStrip entry.line).data ∨ ']' ∉ (pyStrip entry.line).data) :
    process_once env s = (.error .indexError, { s with scriptQueue := rest })
    ∧ ({ s with scriptQueue := rest }).audioQueue = s.audioQueue
    ∧ ({ s with scriptQueue := rest }).history = s.history
    ∧ ({ s with scriptQueue := rest }).chunkCounter = s.chunkCounter := by
  refine ⟨?_, rfl, rfl, rfl⟩
  unfold process_once pop_next_interrupt
  rw [hiq]
  dsimp only
  unfold handle_script_line pop_next_script_entry
  rw [hq]
  dsimp only
  rw [if_neg hne, parse_speaker_line_error _ hbr]
  dsimp only
  rw [hiq]

/-- Witness for the amended C10: a bracketless line is popped, raises
`IndexError`, and is lost without producing audio or history. -/
theorem script_line_missing_bracket_error_witness :
    process_once envDemo ⟨[⟨"no brackets", .general, "speed"⟩], [], [], [], [], 0, 0, 0⟩
      = (.error .indexError, ⟨[], [], [], [], [], 0, 0, 0⟩)
    ∧ ([] : List Chunk) = []
    ∧ ([] : List HistoryRecord) = [] := by
  have h := script_line_missing_bracket_error envDemo
    ⟨[⟨"no brackets", .general, "speed"⟩], [], [], [], [], 0, 0, 0⟩
    ⟨"no brackets", .general, "speed"⟩ [] rfl rfl (by decide) (Or.inl (by decide))
  exact ⟨h.1, rfl, rfl⟩

/-- Cost component of Python's `min(…, key=lambda x: x[0])` folded
pairwise: the minimum of the costs. -/
lemma minByCost_fst (a b : Nat × Nat × Nat × Nat) :
    (minByCost a b).1 = min a.1 b.1 := by
  unfold minByCost
  split <;> omega

/-- Edit distance from the empty sequence: all insertions. -/
lemma editDistance_nil_left (b : List String) : editDistance [] b = b.length := by
  unfold editDistance
  simp

/-- Edit distance to the empty sequence: all deletions. -/
lemma editDistance_nil_right (a : List String) : editDistance a [] = a.length := by
  unfold editDistance
  by_cases h : a = [] <;> simp [h]

/-- Defining recurrence of the textbook edit distance on last elements. -/
lemma editDistance_concat (a b : List String) (x y : String) :
    editDistance (a ++ [x]) (b ++ [y]) =
      if x = y then editDistance a b
      else 1 + min (min (editDistance (a ++ [x]) b) (editDistance a (b ++ [y])))
        (editDistance a b) := by
  have hxa : a ++ [x] ≠ [] := by simp
  have hyb : b ++ [y] ≠ [] := by simp
  rw [editDistance]
  rw [dif_neg hxa, dif_neg hyb]
  rw [List.dropLast_concat, List.dropLast_concat]
  simp [List.getLast_append]

/-- The `calculate_wer` DP table computes the textbook edit distance of
the corresponding word-sequence prefixes. -/
lemma werDP_editDistance (r h : List String) :
    ∀ n i j, i + j = n → i ≤ r.length → j ≤ h.length →
      (werDP r h i j).1 = editDistance (r.take i) (h.take j) := by
  intro n
  induction n using Nat.strong_induction_on with
  | _ n ih =>
    intro i j hn hi hj
    rcases i with _ | i <;> rcases j with _ | j
    · simp [werDP, editDistance_nil_left]
    · have hlen : (h.take (j + 1)).length = j + 1 := by
        rw [List.length_take]; omega
      simp [werDP, editDistance_nil_left, hlen]
    · have hlen : (r.take (i + 1)).length = i + 1 := by
        rw [List.length_take]; omega
      simp [werDP, editDistance_nil_right, hlen]
    · have hir : i < r.length := by omega
      have hjh : j < h.length := by omega
      have hti : r.take (i + 1) = r.take i ++ [r.getD i ""] := by
        rw [List.take_succ]
        congr 1
        rw [List.getElem?_eq_getElem hir, List.getD_eq_getElem r "" hir]
        rfl
      have htj : h.take (j + 1) = h.take j ++ [h.getD j ""] := by
        rw [List.take_succ]
        congr 1
        rw [List.getElem?_eq_getElem hjh, List.getD_eq_getElem h "" hjh]
        rfl
      rw [hti, htj, editDistance_concat]
      have e1 : (werDP r h (i + 1) j).1 = editDistance (r.take (i + 1)) (h.take j) :=
        ih (i + 1 + j) (by omega) (i + 1) j rfl (by omega) (by omega)
      have e2 : (werDP r h i (j + 1)).1 = editDistance (r.take i) (h.take (j + 1)) :=
        ih (i + (j + 1)) (by omega) i (j + 1) rfl (by omega) (by omega)
      have e3 : (werDP r h i j).1 = editDistance (r.take i) (h.take j) :=
        ih (i + j) (by omega) i j rfl (by omega) (by omega)
      by_cases hxy : r.getD i "" = h.getD j ""
      · rw [if_pos hxy]
        have hL : werDP r h (i + 1) (j + 1) = werDP r h i j := by
          rw [werDP, if_pos hxy]
        rw [hL, e3]
      · rw [if_neg hxy]
        have hL : (werDP r h (i + 1) (j + 1)).1
            = 1 + min (min (werDP r h (i + 1) j).1 (werDP r h i (j + 1)).1)
                (werDP r h i j).1 := by
          rw [werDP, if_neg hxy]
          dsimp only
          rw [minByCost_fst, minByCost_fst]
          dsimp only
          omega
        rw [hL, e1, e2, e3, hti, htj]

/-- Every word sequence is at edit distance zero from itself. -/
lemma editDistance_self (a : List String) : editDistance a a = 0 := by
  induction a using List.reverseRecOn with
  | nil => simp [editDistance_nil_left]
  | append_singleton xs x ih =>
    rw [editDistance_concat, if_pos rfl]
    exact ih

/-- Counterexample to C9 as stated: `aget_valid_score` passes the
transcription as the FIRST argument of `calculate_wer`, which divides the
edit cost by the word count of that first argument — so the score is
normalized by the transcription's length, not the reference text's.  With
transcription `"a"` and reference `"a b c"` the code returns
`1 - 2/1 = -1`, while normalizing by the reference's length (as the claim
describes) would give `1 - 2/3 = 1/3`. -/
theorem valid_score_reference_normalization_counterexample :
    valid_score "a" "a b c" = -1
    ∧ claimed_valid_score "a" "a b c" = 1 / 3
    ∧ valid_score "a" "a b c" ≠ claimed_valid_score "a" "a b c" := by
  have hn1 : normWords "a" = ["a"] := by decide
  have hn2 : normWords "a b c" = ["a", "b", "c"] := by decide
  have hl1 : (["a"] : List String).length = 1 := rfl
  have hl3 : (["a", "b", "c"] : List String).length = 3 := rfl
  have hw : (werDP ["a"] ["a", "b", "c"] 1 3).1 = 2 := by simp [werDP, minByCost]
  have h1 : valid_score "a" "a b c" = -1 := by
    unfold valid_score calculate_wer
    dsimp only
    rw [hn1, hn2, hl1, hl3, hw]
    norm_num
  have h2 : claimed_valid_score "a" "a b c" = 1 / 3 := by
    unfold claimed_valid_score
    dsimp only
    rw [hn1, hn2, hl1, hl3, hw]
    norm_num
  exact ⟨h1, h2, by rw [h1, h2]; norm_num⟩

/-- C9 (amended): the Valid-Score function computes the unit-cost
insertion/deletion/substitution edit distance between the two normalized
(lowercased, punctuation-stripped, whitespace-collapsed) word sequences
via dynamic programming, with `WER = cost / max(1, m)` where `m` is the
word count of the TRANSCRIPTION (the first argument), and returns
`1 - WER`; in particular the score of a text against itself is 1. -/
theorem valid_score_spec (t r : String) :
    valid_score t r
      = 1 - (editDistance (normWords t) (normWords r) : ℚ)
          / ((max 1 (normWords t).length : Nat) : ℚ)
    ∧ valid_score t t = 1 := by
  have hkey : ∀ u v : String, valid_score u v
      = 1 - (editDistance (normWords u) (normWords v) : ℚ)
          / ((max 1 (normWords u).length : Nat) : ℚ) := by
    intro u v
    have hed := werDP_editDistance (normWords u) (normWords v)
      ((normWords u).length + (normWords v).length)
      (normWords u).length (normWords v).length rfl le_rfl le_rfl
    rw [List.take_length, List.take_length] at hed
    unfold valid_score calculate_wer
    dsimp only
    rw [hed]
  refine ⟨hkey t r, ?_⟩
  rw [hkey t t, editDistance_self]
  simp
